import Mathlib

/-!
Verification of the `liminal` stream-processing engine core against its
specification.  The Rust sources under `src/core` (message.rs, timing.rs,
channel.rs, registry.rs, stage.rs, pipeline.rs) are shallowly embedded:

* `SystemTime` is modelled as `Int` (nanoseconds since the Unix epoch;
  pre-epoch instants are negative), `Duration` as `Nat` (nanoseconds).
  Every call of `SystemTime::now()` in the source becomes an explicit
  `now : Int` argument of the embedded function.
* `serde_json::Value` is modelled by the inductive `Json`; numbers are
  rationals (`ℚ`), with integral non-negative rationals playing the role
  of numbers whose `as_u64` succeeds.
* Fallible operations return `Option`/`Except`; a Rust `panic!`/`expect`
  branch is modelled as the `none` result of the corresponding function.
* The tokio / flume channel internals are external libraries; they are
  modelled by explicit state machines following their documented
  semantics (ring buffer for `tokio::sync::broadcast`, taken-receiver
  flag for `tokio::sync::mpsc`), while the repository's own wrapper code
  (`Subscriber::recv`, `MpscChannel::subscribe`, `FanoutChannel::publish`,
  `BroadcastChannel::publish`, `Stage::run`) is translated line by line
  on top of those models.
-/

namespace Liminal

/-- `SystemTime`, nanoseconds since the Unix epoch (`Int`: pre-epoch is negative). -/
abbrev SystemTime := Int

/-- `std::time::Duration`, non-negative nanoseconds. -/
abbrev Duration := Nat

/-- Model of Rust `f64::trunc` on a rational (round toward zero). -/
def ratTrunc (q : ℚ) : Int := q.num / (q.den : Int)

/-! ## `serde_json::Value` -/

/-- Model of `serde_json::Value`.  Numbers are rationals: an integral
non-negative number stands for a value whose `as_u64()` succeeds, any
other rational for a float (`as_f64`). -/
inductive Json where
  | null : Json
  | bool (b : Bool) : Json
  | num (q : ℚ) : Json
  | str (s : String) : Json
  | arr (elems : List Json) : Json
  | obj (fields : List (String × Json)) : Json

/-- `serde_json::Value::get(&str)`: key lookup on objects, `None` on
everything else (a string index never indexes an array). -/
def Json.get (j : Json) (key : String) : Option Json :=
  match j with
  | .obj fields => (fields.find? (fun p => p.1 = key)).map (·.2)
  | _ => none

/-- Inner loop of `FieldUtils::extract_field_value`: follow the parts of
the dot-separated path one `Value::get` at a time. -/
def extractFieldGo (j : Json) (parts : List String) : Option Json :=
  match parts with
  | [] => some j
  | p :: rest => (j.get p).bind (fun j2 => extractFieldGo j2 rest)

/-- `FieldUtils::extract_field_value(payload, field_path)` (field_utils.rs):
split the path on dots and walk the payload. -/
def extract_field_value (payload : Json) (field_path : String) : Option Json :=
  extractFieldGo payload (field_path.splitOn ".")

/-- `TimingHelpers::parse_iso_timestamp` (timing.rs): the source body is
`None // TODO: Implement proper ISO 8601 parsing`. -/
def parse_iso_timestamp (_s : String) : Option SystemTime := none

/-- Convert the `as_f64` branch of `extract_timestamp_field`:
`secs = f.floor() as u64` (saturating at 0), `nanos = (f.fract() * 1e9) as u32`,
result `UNIX_EPOCH + Duration::new(secs, nanos)`. -/
def floatSecsToTime (q : ℚ) : SystemTime :=
  let secs : Nat := (Int.fdiv q.num (q.den : Int)).toNat
  let nanos : Nat := ((q.num - ratTrunc q * (q.den : Int)) * 1000000000 / (q.den : Int)).toNat
  ((secs : Int) * 1000000000 + (nanos : Int))

/-- `TimingHelpers::extract_timestamp_field` (timing.rs): numeric fields
are milliseconds since epoch (`as_u64`) or fractional seconds (`as_f64`),
string fields go through the (stub) ISO-8601 parser, everything else is
`None`. -/
def extract_timestamp_field (payload : Json) (field_path : String) : Option SystemTime :=
  match extract_field_value payload field_path with
  | some (.num n) =>
      if n.den = 1 ∧ 0 ≤ n.num then
        some ((n.num) * 1000000)
      else
        some (floatSecsToTime n)
  | some (.str s) => parse_iso_timestamp s
  | some _ => none
  | none => none

/-! ## `TimingInfo` and `Message` (message.rs) -/

/-- `TimingInfo` (message.rs). -/
structure TimingInfo where
  event_time : SystemTime
  ingestion_time : SystemTime
  processing_deadline : Option SystemTime
  watermark : Option SystemTime
  sequence_id : Option Nat
  trace_id : Option String
deriving DecidableEq, Repr

/-- `TimingInfo::now()`: both event and ingestion time are the current
instant (`now` is the clock reading at the call). -/
def TimingInfo.now (now : SystemTime) : TimingInfo :=
  { event_time := now
    ingestion_time := now
    processing_deadline := none
    watermark := none
    sequence_id := none
    trace_id := none }

/-- `TimingInfo::with_event_time(event_time)`: the source comment reads
"Use same time for ingestion as event time for simulated data", and the
body stores `event_time` in both fields — the clock is never read. -/
def TimingInfo.with_event_time (event_time : SystemTime) : TimingInfo :=
  { event_time := event_time
    ingestion_time := event_time
    processing_deadline := none
    watermark := none
    sequence_id := none
    trace_id := none }

/-- `TimingInfo::with_times(event_time, ingestion_time)`. -/
def TimingInfo.with_times (event_time ingestion_time : SystemTime) : TimingInfo :=
  { event_time := event_time
    ingestion_time := ingestion_time
    processing_deadline := none
    watermark := none
    sequence_id := none
    trace_id := none }

/-- `TimingInfo::processing_latency()`:
`ingestion_time.duration_since(event_time).unwrap_or(Duration::ZERO)` —
the difference, saturating at zero (`Int.toNat` clamps negatives to 0). -/
def TimingInfo.processing_latency (t : TimingInfo) : Duration :=
  (t.ingestion_time - t.event_time).toNat

/-- `TimingInfo::is_deadline_exceeded()`: deadline set and `now() > deadline`
(`now` is the clock reading at the call). -/
def TimingInfo.is_deadline_exceeded (now : SystemTime) (t : TimingInfo) : Bool :=
  match t.processing_deadline with
  | some deadline => now > deadline
  | none => false

/-- `TimingInfo::is_late()`: watermark set and `event_time < watermark`. -/
def TimingInfo.is_late (t : TimingInfo) : Bool :=
  match t.watermark with
  | some watermark => t.event_time < watermark
  | none => false

/-- `Message` (message.rs).  The legacy `timestamp` field is the ingestion
time in whole milliseconds since epoch (the source `unwrap`s the
pre-epoch case; the model clamps it). -/
structure Message where
  source : String
  topic : String
  payload : Json
  timestamp : Nat
  timing : TimingInfo

/-- `Message::new(source, topic, payload)`: timing from `TimingInfo::now()`
(`now` is the clock reading at the call). -/
def Message.new (now : SystemTime) (source topic : String) (payload : Json) : Message :=
  let timing := TimingInfo.now now
  { source := source
    topic := topic
    payload := payload
    timestamp := (timing.ingestion_time / 1000000).toNat
    timing := timing }

/-- `Message::new_with_event_time(source, topic, payload, event_time)`:
timing from `TimingInfo::with_event_time(event_time)`.  `now` is the
ambient clock reading at the call; the source never consults the clock
in this constructor, so the result does not depend on it. -/
def Message.new_with_event_time (now : SystemTime) (source topic : String)
    (payload : Json) (event_time : SystemTime) : Message :=
  let _ := now
  let timing := TimingInfo.with_event_time event_time
  { source := source
    topic := topic
    payload := payload
    timestamp := (timing.ingestion_time / 1000000).toNat
    timing := timing }

/-- `Message::with_deadline`. -/
def Message.with_deadline (m : Message) (deadline : SystemTime) : Message :=
  { m with timing := { m.timing with processing_deadline := some deadline } }

/-- `Message::with_watermark`. -/
def Message.with_watermark (m : Message) (watermark : SystemTime) : Message :=
  { m with timing := { m.timing with watermark := some watermark } }

/-! ## Timing subsystem (timing.rs) -/

/-- `WatermarkStrategy` (timing.rs).  The `percentile` of the heuristic
strategy is an `f64` in the source, modelled as a rational. -/
inductive WatermarkStrategy where
  | none_ : WatermarkStrategy
  | periodic (interval : Duration) : WatermarkStrategy
  | punctuated (field : String) : WatermarkStrategy
  | heuristic (percentile : ℚ) : WatermarkStrategy
deriving DecidableEq, Repr

/-- `ClockSource` (timing.rs). -/
inductive ClockSource where
  | system : ClockSource
  | logical : ClockSource
  | hybrid : ClockSource
deriving DecidableEq, Repr

/-- `TimingConfig` (timing.rs). -/
structure TimingConfig where
  watermark_strategy : WatermarkStrategy
  max_lateness : Duration
  jitter_bounds : Option Duration
  clock_source : ClockSource
  metrics_enabled : Bool
deriving DecidableEq, Repr

/-- `TimingConfig::default()`: no watermarks, 30 s max lateness, no jitter
bound, system clock, metrics on. -/
def TimingConfig.default : TimingConfig :=
  { watermark_strategy := .none_
    max_lateness := 30000000000
    jitter_bounds := none
    clock_source := .system
    metrics_enabled := true }

/-- `WatermarkManager` (timing.rs). -/
structure WatermarkManager where
  config : TimingConfig
  last_watermark : Option SystemTime
  last_periodic_update : SystemTime
  event_timestamps : List SystemTime
deriving DecidableEq, Repr

/-- `WatermarkManager::new(config)` (`now` is the clock reading at the call,
stored as `last_periodic_update`). -/
def WatermarkManager.new (now : SystemTime) (config : TimingConfig) : WatermarkManager :=
  { config := config
    last_watermark := none
    last_periodic_update := now
    event_timestamps := [] }

/-- Ascending stable sort used for `Vec::sort` on event timestamps. -/
def sortTimes (l : List SystemTime) : List SystemTime :=
  l.insertionSort (· ≤ ·)

/-- The sliding window the heuristic arm of `update_watermark` maintains:
push the message's event time, then `if len > 1000 { remove(0) }`. -/
def heuristicWindow (mgr : WatermarkManager) (message : Message) : List SystemTime :=
  let pushed := mgr.event_timestamps ++ [message.timing.event_time]
  if pushed.length > 1000 then pushed.drop 1 else pushed

/-- The index the heuristic arm reads from the sorted window:
`((sorted.len() as f64) * percentile / 100.0) as usize`.  The exact
rational `len·p/100` equals `(len·p.num)/(p.den·100)`, and the `as usize`
cast truncates toward zero saturating at 0, which `Int` T-division
followed by `Int.toNat` implements. -/
def heuristicIndex (percentile : ℚ) (len : Nat) : Nat :=
  (((len : Int) * percentile.num) / ((percentile.den : Int) * 100)).toNat

/-- `WatermarkManager::update_watermark(&mut self, message)` (timing.rs).
Returns the emitted watermark (if any) together with the updated manager;
`now` is the clock reading taken inside the call.

* `None`: no watermark.
* `Periodic`: if `now.duration_since(last_periodic_update).unwrap_or(ZERO)
  >= interval` (the `Int.toNat` clamp models `unwrap_or(ZERO)`), emit
  `now - max_lateness`.
* `Punctuated`: emit `field_value - max_lateness` when the field extracts.
* `Heuristic`: push the event time, trim the window to the last 1000
  entries, and once at least 10 samples are held emit
  `sorted.get(index).copied().unwrap_or(now) - max_lateness` with
  `index = (len as f64 * percentile / 100.0) as usize`. -/
def WatermarkManager.update_watermark (now : SystemTime) (mgr : WatermarkManager)
    (message : Message) : Option SystemTime × WatermarkManager :=
  match mgr.config.watermark_strategy with
  | .none_ => (none, mgr)
  | .periodic interval =>
      if (now - mgr.last_periodic_update).toNat ≥ interval then
        let watermark := now - (mgr.config.max_lateness : Int)
        (some watermark,
          { mgr with last_periodic_update := now, last_watermark := some watermark })
      else
        (none, mgr)
  | .punctuated field =>
      match extract_timestamp_field message.payload field with
      | some watermark_value =>
          let watermark := watermark_value - (mgr.config.max_lateness : Int)
          (some watermark, { mgr with last_watermark := some watermark })
      | none => (none, mgr)
  | .heuristic percentile =>
      let window := heuristicWindow mgr message
      if window.length ≥ 10 then
        let sorted := sortTimes window
        let index := heuristicIndex percentile sorted.length
        let watermark := (sorted[index]?.getD now) - (mgr.config.max_lateness : Int)
        (some watermark,
          { mgr with event_timestamps := window, last_watermark := some watermark })
      else
        (none, { mgr with event_timestamps := window })

/-- `WatermarkManager::current_watermark`. -/
def WatermarkManager.current_watermark (mgr : WatermarkManager) : Option SystemTime :=
  mgr.last_watermark

/-- `TimingHelpers::should_drop_message(message, config)` (timing.rs):
deadline exceeded, or late w.r.t. the watermark, or processing latency
above the configured jitter bound. -/
def should_drop_message (now : SystemTime) (message : Message) (config : TimingConfig) : Bool :=
  if message.timing.is_deadline_exceeded now then
    true
  else if message.timing.is_late then
    true
  else
    match config.jitter_bounds with
    | some jitter_bound => message.timing.processing_latency > jitter_bound
    | none => false

/-! ## Channel substrate (channel.rs)

The four channel variants wrap external library primitives.  Those
primitives are modelled as explicit state machines following their
documented semantics; the repository's wrapper methods are translated
on top of them. -/

/-- `PublishError` (channel.rs), with the payload of the underlying
library error dropped. -/
inductive PublishError where
  | broadcastError : PublishError
  | mpscError : PublishError
  | flumeError : PublishError
  | fanoutError : PublishError
deriving DecidableEq, Repr

/-- State of a `tokio::sync::broadcast` channel: the full publication log
(the ring buffer retains the last `cap` entries), the number of live
receivers, and whether every sender has been dropped. -/
structure BroadcastState (M : Type) where
  cap : Nat
  log : List M
  receivers : Nat
  senderClosed : Bool
deriving DecidableEq, Repr

/-- Outcome of `tokio::sync::broadcast::Receiver::recv`. -/
inductive BcRecvResult (M : Type) where
  | msg (m : M) : BcRecvResult M
  | lagged (missed : Nat) : BcRecvResult M
  | closedErr : BcRecvResult M
  | pending : BcRecvResult M
deriving DecidableEq, Repr

/-- `tokio::sync::broadcast::Receiver::recv`, as documented: a receiver
more than `cap` messages behind the head gets `Err(Lagged(missed))` and
its position is advanced to the oldest retained message; otherwise the
next logged message is delivered; an exhausted receiver sees
`Err(Closed)` once every sender is gone, and pends otherwise.  Returns
the outcome and the receiver's new position. -/
def bcRecv {M : Type} (st : BroadcastState M) (pos : Nat) : BcRecvResult M × Nat :=
  if pos + st.cap < st.log.length then
    (.lagged (st.log.length - st.cap - pos), st.log.length - st.cap)
  else
    match st.log.get? pos with
    | some m => (.msg m, pos + 1)
    | none => if st.senderClosed then (.closedErr, pos) else (.pending, pos)

/-- The `Subscriber::Broadcast` arm of `Subscriber::recv` (channel.rs):
`Ok(msg) => Some(msg)`, `Err(Lagged(_)) => None`, `Err(Closed) => None`.
The outer `Option` is readiness: `none` when the underlying `recv` is
still pending (the await has not resolved), `some r` when it resolves
with the repository-level result `r` and the new receiver position. -/
def subscriberRecvBroadcast {M : Type} (st : BroadcastState M) (pos : Nat) :
    Option (Option M × Nat) :=
  match bcRecv st pos with
  | (.msg m, p) => some (some m, p)
  | (.lagged _, p) => some (none, p)
  | (.closedErr, p) => some (none, p)
  | (.pending, _) => none

/-- `BroadcastChannel::new(capacity)` (channel.rs): `broadcast::channel`
yields a sender and one receiver, and the constructor drops the receiver,
so the fresh channel has no live receiver. -/
def BroadcastChannel.new (M : Type) (capacity : Nat) : BroadcastState M :=
  { cap := capacity, log := [], receivers := 0, senderClosed := false }

/-- `BroadcastChannel::publish` (channel.rs): `broadcast::Sender::send`
succeeds and appends to the log when at least one receiver is live, and
returns `Err(SendError)` when there are none. -/
def BroadcastChannel.publish {M : Type} (st : BroadcastState M) (m : M) :
    Except PublishError (BroadcastState M) :=
  if st.receivers = 0 then
    .error .broadcastError
  else
    .ok { st with log := st.log ++ [m] }

/-- `BroadcastChannel::subscribe` (channel.rs): `Sender::subscribe` makes
a fresh receiver positioned at the head of the log. -/
def BroadcastChannel.subscribe {M : Type} (st : BroadcastState M) :
    Nat × BroadcastState M :=
  (st.log.length, { st with receivers := st.receivers + 1 })

/-- The single receiver half of a `tokio::sync::mpsc` channel.  Its queue
is irrelevant to the claims settled here and is left out. -/
structure MpscReceiver where
  unused : Unit
deriving DecidableEq, Repr

/-- `MpscChannel` (channel.rs): the sender plus
`receiver: Mutex<Option<mpsc::Receiver<M>>>`. -/
structure MpscChannel where
  capacity : Nat
  receiver : Option MpscReceiver
deriving DecidableEq, Repr

/-- `MpscChannel::new(capacity)`: the freshly created receiver is stored
in the mutex. -/
def MpscChannel.new (capacity : Nat) : MpscChannel :=
  { capacity := capacity, receiver := some { unused := () } }

/-- `MpscChannel::subscribe` (channel.rs): `guard.take().expect("mpsc:
subscribe() called more than once")`.  The first call takes the receiver
out of the mutex and returns it; when the receiver has already been
taken, the `expect` panics — modelled as the `none` result.  Returns the
(possibly absent) subscriber and the channel state after the call. -/
def MpscChannel.subscribe (ch : MpscChannel) : Option MpscReceiver × MpscChannel :=
  match ch.receiver with
  | some r => (some r, { ch with receiver := none })
  | none => (none, ch)

/-- One subscriber of a `FanoutChannel`: the `mpsc::Sender` the channel
retains for it (`alive` is false once the receiving half is dropped)
plus the queued messages. -/
structure FanoutSender (M : Type) where
  alive : Bool
  queue : List M
deriving DecidableEq, Repr

/-- `FanoutChannel` (channel.rs): a capacity and the list of per-subscriber
senders. -/
structure FanoutChannel (M : Type) where
  capacity : Nat
  senders : List (FanoutSender M)
deriving DecidableEq, Repr

/-- `FanoutChannel::new(capacity)`: no senders yet. -/
def FanoutChannel.new (M : Type) (capacity : Nat) : FanoutChannel M :=
  { capacity := capacity, senders := [] }

/-- The `for sender in senders` loop of `FanoutChannel::publish`: send the
message into every per-subscriber queue, failing on the first sender
whose receiver is gone. -/
def fanoutSendAll {M : Type} (senders : List (FanoutSender M)) (m : M) :
    Except PublishError (List (FanoutSender M)) :=
  match senders with
  | [] => .ok []
  | s :: rest =>
      if s.alive then
        (fanoutSendAll rest m).map (fun rest2 => { s with queue := s.queue ++ [m] } :: rest2)
      else
        .error .fanoutError

/-- `FanoutChannel::publish` (channel.rs): snapshot the sender list, then
send to every sender in it; with no subscribers the loop body never runs
and the result is `Ok(())`. -/
def FanoutChannel.publish {M : Type} (ch : FanoutChannel M) (m : M) :
    Except PublishError (FanoutChannel M) :=
  (fanoutSendAll ch.senders m).map (fun senders2 => { ch with senders := senders2 })

/-- `FanoutChannel::subscribe` (channel.rs): create a fresh
`mpsc::channel(capacity)` pair, push the sender, hand back the receiver.
Returns the index of the new subscriber and the updated channel; the new
subscriber's queue starts empty. -/
def FanoutChannel.subscribe {M : Type} (ch : FanoutChannel M) : Nat × FanoutChannel M :=
  (ch.senders.length, { ch with senders := ch.senders ++ [{ alive := true, queue := [] }] })

/-! ## Stage run loop (stage.rs) -/

/-- `ControlMessage` (stage.rs). -/
inductive ControlMessage where
  | terminate : ControlMessage
deriving DecidableEq, Repr

/-- A stage's view of the control channel:
`Option<broadcast::Receiver<ControlMessage>>` — the broadcast state it
receives from plus its own position, or `none` when no control channel
was ever attached. -/
abbrev ControlState := Option (BroadcastState ControlMessage × Nat)

/-- The control branch of the `tokio::select!` in `Stage::run`:
`if let Some(cc) = &mut self.control_channel { cc.recv().await.ok() }
else { None }`.  `Ok(m)` yields `some m`; `Err(Lagged)`, `Err(Closed)`
and the missing-channel case all yield `none` (the `Some(message)`
pattern then fails and the select falls through to the work branch; a
pending recv leaves the work branch to run as well, so both cases
continue identically).  Returns the yielded message and the updated
control state. -/
def controlPoll (ctl : ControlState) : Option ControlMessage × ControlState :=
  match ctl with
  | none => (none, none)
  | some (st, pos) =>
      match bcRecv st pos with
      | (.msg m, p) => (some m, some (st, p))
      | (.lagged _, p) => (none, some (st, p))
      | (.closedErr, p) => (none, some (st, p))
      | (.pending, p) => (none, some (st, p))

/-- Result of running the `Stage::run` loop against a finite schedule of
processor outcomes. -/
inductive RunResult where
  | terminated : RunResult
  | failed (e : String) : RunResult
  | running (ctl : ControlState) : RunResult
deriving DecidableEq, Repr

/-- `Stage::run` (stage.rs) driven by the list of results the successive
`processor.process(ctx)` calls return.  Each loop iteration first polls
the control branch: `ControlMessage::Terminate` breaks the loop (the
select's nondeterminism is resolved in favour of the control branch;
when the control branch yields nothing the work branch is the only one
able to run, so the claims about a silent control channel are unaffected
by this choice).  A processor error is returned (`return Err(e)`), an
`Ok` continues the loop; `running` records that the schedule ran out
with the loop still live. -/
def stageRun (ctl : ControlState) (procResults : List (Except String Unit)) : RunResult :=
  let c := controlPoll ctl
  if c.1 = some .terminate then
    .terminated
  else
    match procResults with
    | [] => .running c.2
    | .error e :: _ => .failed e
    | .ok _ :: rest => stageRun c.2 rest

/-! ## Channel registry (registry.rs) -/

/-- `ChannelType` (config/types.rs); `Broadcast` is the serde default. -/
inductive ChannelType where
  | broadcast : ChannelType
  | direct : ChannelType
  | shared : ChannelType
  | fanout : ChannelType
deriving DecidableEq, Repr

/-- The data `Channel::new(kind, capacity)` is constructed from.  Channel
identity (`Arc` pointer identity in the source) is modelled as the index
into the registry's allocation store. -/
structure ChannelDesc where
  kind : ChannelType
  capacity : Nat
deriving DecidableEq, Repr

/-- `ChannelRegistry` (registry.rs): the `HashMap<String, Arc<Channel>>`
is modelled as an association list from names to channel ids, together
with the store of allocated channels (its index is the `Arc` identity). -/
structure ChannelRegistry where
  channels : List (String × Nat)
  store : List ChannelDesc
deriving DecidableEq, Repr

/-- `ChannelRegistry::new()`. -/
def ChannelRegistry.empty : ChannelRegistry :=
  { channels := [], store := [] }

/-- `ChannelRegistry::get(name)`: the existing channel, or `none`. -/
def ChannelRegistry.get (r : ChannelRegistry) (name : String) : Option Nat :=
  ((r.channels.find? (fun p => p.1 = name)).map (·.2))

/-- `ChannelRegistry::get_or_create(name, channel_type, capacity)`
(registry.rs): `entry(name).or_insert_with(|| Channel::new(type, cap))` —
an existing entry is returned untouched (the supplied type and capacity
are ignored); otherwise a fresh channel is allocated and registered.
Returns the channel id and the updated registry. -/
def ChannelRegistry.get_or_create (r : ChannelRegistry) (name : String)
    (channel_type : ChannelType) (capacity : Nat) : Nat × ChannelRegistry :=
  match r.get name with
  | some id => (id, r)
  | none =>
      let id := r.store.length
      (id, { channels := (name, id) :: r.channels
             store := r.store ++ [{ kind := channel_type, capacity := capacity }] })

/-! ## Pipeline wiring (pipeline.rs)

`build_all` produces the `name → stage` map from the configuration;
`connect_stages` then wires inputs and outputs through the registry.
The wiring effects on a stage's `ProcessingContext`
(`add_input`/`attach_output`, context.rs) are recorded as `WireRec`
values. -/

/-- `ChannelConfig` (config/types.rs). -/
structure ChannelConfig where
  kind : ChannelType
  capacity : Nat
deriving DecidableEq, Repr

/-- `ChannelConfig::default()`: broadcast, capacity 128. -/
def ChannelConfig.default : ChannelConfig :=
  { kind := .broadcast, capacity := 128 }

/-- The parts of `StageConfig` (config/types.rs) that `connect_stages`
reads: the input channel names, the output channel name, and the output
channel configuration. -/
structure StageConfig where
  inputs : Option (List String)
  output : Option String
  channel : Option ChannelConfig
deriving DecidableEq, Repr

/-- The stage list of one `[pipelines.<name>]` table. -/
structure PipelineConfig where
  description : String
  stages : List (String × StageConfig)
deriving DecidableEq, Repr

/-- The parts of `Config` that drive `connect_stages`: the `inputs`,
`pipelines` and `outputs` tables, each a map iterated as a list. -/
structure Config where
  inputs : List (String × StageConfig)
  pipelines : List (String × PipelineConfig)
  outputs : List (String × StageConfig)
deriving DecidableEq, Repr

/-- `PipelineManager::get_all_stage_configs` (pipeline.rs): inputs, then
every pipeline's stages, then outputs. -/
def getAllStageConfigs (cfg : Config) : List (String × StageConfig) :=
  cfg.inputs ++ (cfg.pipelines.flatMap (fun p => p.2.stages)) ++ cfg.outputs

/-- The wiring a successful `try_connect_stage` leaves on the stage's
`ProcessingContext`: one subscription per named input
(`Stage::add_input`), and the output channel if the stage declares one
(`Stage::add_output`). -/
structure WireRec where
  stage : String
  inputs : List String
  output : Option String
deriving DecidableEq, Repr

/-- The wiring state a `PipelineManager` carries through
`connect_stages`: the channel registry, the set of Direct-channel ids
whose sole receiver has already been taken by a subscription (the
`Mutex<Option<Receiver>>` interior of each `MpscChannel`, rendered as
explicit state), the key set of the `stages` map built by `build_all`,
and the wiring records accumulated so far. -/
structure WiringState where
  registry : ChannelRegistry
  takenReceivers : List Nat
  stageSet : List String
  wired : List WireRec
deriving DecidableEq, Repr

/-- How one `try_connect_stage` attempt fails.  `recoverable` is an
`anyhow::Error` returned as `Err`: the worklist catches it
(`is_err()`) and defers the stage.  `panic` is a Rust panic raised
below `try_connect_stage` (the `expect` in `MpscChannel::subscribe`):
it unwinds out of `connect_stages` entirely — no caller catches it. -/
inductive WireFailure where
  | panic (msg : String) : WireFailure
  | recoverable (msg : String) : WireFailure
deriving DecidableEq, Repr

/-- What a `connect_stages` invocation does: return
`Ok(self)`, return the unmet-or-circular-dependency `Err`, or unwind
with a panic raised during wiring. -/
inductive ConnectResult where
  | ok (st : WiringState) : ConnectResult
  | unmet (names : List String) : ConnectResult
  | panicked (msg : String) : ConnectResult
deriving DecidableEq, Repr

/-- `PipelineManager::are_all_inputs_available` (pipeline.rs): every
declared input is present in the registry; a stage without an `inputs`
list passes vacuously. -/
def areAllInputsAvailable (registry : ChannelRegistry) (sc : StageConfig) : Bool :=
  match sc.inputs with
  | some inputs => inputs.all (fun i => (registry.get i).isSome)
  | none => true

/-- `Channel::subscribe` (channel.rs) as invoked during wiring, acting
on the wiring state.  Dispatch on the channel's variant:

* `Direct` (`MpscChannel::subscribe`): take the receiver out of the
  `Mutex<Option<Receiver>>`; when it was already taken,
  `guard.take().expect("mpsc: subscribe() called more than once")`
  panics — the `.error` case.  The mutex interior of each Direct
  channel is rendered as explicit state: `takenReceivers` is the set of
  channel ids whose sole receiver has been handed out.
* `Broadcast`, `Shared` (flume), `Fanout`: subscribe always succeeds
  (`Sender::subscribe`, `Receiver::clone`, push of a fresh mpsc pair);
  the new receiver handle never influences a later wiring step, so no
  per-channel state is tracked for them. -/
def channelSubscribe (st : WiringState) (id : Nat) : Except String WiringState :=
  match st.registry.store[id]? with
  | some desc =>
      match desc.kind with
      | .direct =>
          if id ∈ st.takenReceivers then
            .error "mpsc: subscribe() called more than once"
          else
            .ok { st with takenReceivers := id :: st.takenReceivers }
      | _ => .ok st
  | none => .ok st

/-- The loop of `PipelineManager::map_inputs` (pipeline.rs): look each
input up in the registry; a missing input aborts with a recoverable
`Err`, a present one is subscribed (`channel.subscribe()` — which
panics on the second subscription of a Direct channel) and attached
(`Stage::add_input`).  Returns the subscribed input names in order
together with the state after the subscriptions. -/
def mapInputsGo (st : WiringState) (inputs : List String) :
    Except WireFailure (List String × WiringState) :=
  match inputs with
  | [] => .ok ([], st)
  | i :: rest =>
      match st.registry.get i with
      | some id =>
          match channelSubscribe st id with
          | .ok st2 =>
              match mapInputsGo st2 rest with
              | .ok r => .ok (i :: r.1, r.2)
              | .error f => .error f
          | .error msg => .error (.panic msg)
      | none => .error (.recoverable "Input channel not found")

/-- `PipelineManager::map_inputs`: a stage without an `inputs` list
subscribes to nothing. -/
def mapInputs (st : WiringState) (sc : StageConfig) :
    Except WireFailure (List String × WiringState) :=
  match sc.inputs with
  | some inputs => mapInputsGo st inputs
  | none => .ok ([], st)

/-- `PipelineManager::create_output` (pipeline.rs): if the stage declares
an output, `get_or_create` it with the stage's channel config (or the
default) and attach it.  Returns the updated registry. -/
def createOutput (registry : ChannelRegistry) (sc : StageConfig) : ChannelRegistry :=
  match sc.output with
  | some output_name =>
      let cc := sc.channel.getD ChannelConfig.default
      (registry.get_or_create output_name cc.kind cc.capacity).2
  | none => registry

/-- `PipelineManager::try_connect_stage` (pipeline.rs): fail
(recoverably) when the stage is missing from the `stages` map or some
input channel is not yet available; otherwise subscribe every input —
which can panic on a Direct channel whose receiver is already taken —
then create/attach the output and record the wiring. -/
def tryConnectStage (st : WiringState) (entry : String × StageConfig) :
    Except WireFailure WiringState :=
  if entry.1 ∈ st.stageSet then
    if areAllInputsAvailable st.registry entry.2 then
      match mapInputs st entry.2 with
      | .ok r =>
          .ok { r.2 with
                  registry := createOutput r.2.registry entry.2
                  wired := r.2.wired ++ [{ stage := entry.1
                                           inputs := r.1
                                           output := entry.2.output }] }
      | .error f => .error f
    else
      .error (.recoverable "Inputs not available for stage")
  else
    .error (.recoverable "Stage not found")

/-- One pass over a worklist of stages (both the first loop of
`connect_stages` and the body of the `while` loop in
`resolve_deferred_stages`): try to connect each stage in order; a
recoverable failure pushes the stage onto the new deferred list, a
success sets the progress flag, and a panic aborts the pass (and with
it the whole `connect_stages` call) — the `.error` case carries the
panic message.  On normal completion returns the state, the deferred
stages in order, and the progress flag. -/
def connectPass (st : WiringState) (stages : List (String × StageConfig)) :
    Except String (WiringState × List (String × StageConfig) × Bool) :=
  match stages with
  | [] => .ok (st, [], false)
  | e :: rest =>
      match tryConnectStage st e with
      | .ok st2 =>
          match connectPass st2 rest with
          | .ok r => .ok (r.1, r.2.1, true)
          | .error msg => .error msg
      | .error (.recoverable _) =>
          match connectPass st rest with
          | .ok r => .ok (r.1, e :: r.2.1, r.2.2)
          | .error msg => .error msg
      | .error (.panic msg) => .error msg

/-- `PipelineManager::resolve_deferred_stages` (pipeline.rs): iterate the
deferred list; exit with `Ok` when it empties, keep passing while
progress is made, and fail with the unmet-or-circular-dependency error
naming the still-deferred stages when a full pass makes no progress; a
panic raised inside a pass unwinds out. -/
def resolveDeferredStages (st : WiringState) (deferred : List (String × StageConfig)) :
    ConnectResult :=
  if deferred.isEmpty then
    .ok st
  else
    match hps : connectPass st deferred with
    | .error msg => .panicked msg
    | .ok r =>
        if r.2.1.isEmpty then
          .ok r.1
        else if h : r.2.2 = true then
          resolveDeferredStages r.1 r.2.1
        else
          .unmet (r.2.1.map (·.1))
termination_by deferred.length
decreasing_by
  have aux : ∀ (l : List (String × StageConfig)) (s : WiringState)
      (r2 : WiringState × List (String × StageConfig) × Bool),
      connectPass s l = .ok r2 →
      r2.2.1.length ≤ l.length ∧ (r2.2.2 = true → r2.2.1.length < l.length) := by
    intro l
    induction l with
    | nil =>
        intro s r2 hr
        simp only [connectPass] at hr
        cases hr
        simp
    | cons e rest ih =>
        intro s r2 hr
        cases htc : tryConnectStage s e with
        | ok st2 =>
            cases hrec : connectPass st2 rest with
            | ok r3 =>
                simp only [connectPass, htc, hrec] at hr
                cases hr
                exact ⟨Nat.le_succ_of_le (ih st2 r3 hrec).1,
                  fun _ => Nat.lt_succ_of_le (ih st2 r3 hrec).1⟩
            | error msg =>
                simp only [connectPass, htc, hrec] at hr
                cases hr
        | error f =>
            cases f with
            | recoverable msg =>
                cases hrec : connectPass s rest with
                | ok r3 =>
                    simp only [connectPass, htc, hrec] at hr
                    cases hr
                    exact ⟨Nat.succ_le_succ (ih s r3 hrec).1,
                      fun hp => Nat.succ_lt_succ ((ih s r3 hrec).2 hp)⟩
                | error msg2 =>
                    simp only [connectPass, htc, hrec] at hr
                    cases hr
            | panic msg =>
                simp only [connectPass, htc] at hr
                cases hr
  exact (aux deferred st r hps).2 h

/-- The wiring state `connect_stages` starts from: the registry is empty
(`PipelineManager::new`), no Direct receiver has been taken, and the
`stages` map holds exactly the configured stage names (as `build_all`
leaves it). -/
def initialWiringState (cfg : Config) : WiringState :=
  { registry := ChannelRegistry.empty
    takenReceivers := []
    stageSet := (getAllStageConfigs cfg).map (·.1)
    wired := [] }

/-- `PipelineManager::connect_stages` (pipeline.rs): one pass over all
configured stages (failures deferred), then the deferred-resolution
loop; a panic raised during either one unwinds out of the call. -/
def connectStages (cfg : Config) : ConnectResult :=
  match connectPass (initialWiringState cfg) (getAllStageConfigs cfg) with
  | .ok r => resolveDeferredStages r.1 r.2.1
  | .error msg => .panicked msg

/-- The wiring a successful `try_connect_stage` on stage entry `e` adds:
a subscription per declared input and the declared output. -/
def wireRecOf (e : String × StageConfig) : WireRec :=
  { stage := e.1, inputs := e.2.inputs.getD [], output := e.2.output }

/-- The stage graph of spec Scenario D: two transforms `A` and `B` with
`A.inputs = ["b"]`, `A.output = "a"`, `B.inputs = ["a"]`,
`B.output = "b"` — a dependency cycle. -/
def cycleConfig : Config :=
  { inputs := []
    pipelines :=
      [("cycle",
        { description := "two mutually dependent transforms"
          stages :=
            [("A", { inputs := some ["b"], output := some "a", channel := none }),
             ("B", { inputs := some ["a"], output := some "b", channel := none })] })]
    outputs := [] }

/-- A structurally valid configuration in which two output stages both
consume the Direct stream `raw`: one producer with a Direct output
channel, two consumers.  Wiring the second consumer performs the second
`subscribe` on the Direct channel. -/
def directDoubleConfig : Config :=
  { inputs :=
      [("sim",
        { inputs := none
          output := some "raw"
          channel := some { kind := .direct, capacity := 2 } })]
    pipelines := []
    outputs :=
      [("consoleA", { inputs := some ["raw"], output := none, channel := none }),
       ("consoleB", { inputs := some ["raw"], output := none, channel := none })] }

/-! ## Concrete fixtures used by counterexamples and witnesses -/

/-- A timing configuration using the heuristic watermark strategy with
percentile `p` and zero max lateness. -/
def heuristicCfg (p : ℚ) : TimingConfig :=
  { watermark_strategy := .heuristic p
    max_lateness := 0
    jitter_bounds := none
    clock_source := .system
    metrics_enabled := true }

/-- A message with the given explicit event time (constructed at clock
reading 0). -/
def msgWithEventTime (t : SystemTime) : Message :=
  Message.new_with_event_time 0 "sensor" "raw" Json.null t

/-- A heuristic (percentile 0) watermark manager that has already seen
nine events at time 1000. -/
def nonMonotoneMgr : WatermarkManager :=
  { config := heuristicCfg 0
    last_watermark := none
    last_periodic_update := 0
    event_timestamps := List.replicate 9 1000 }

/-- A heuristic (percentile 100) watermark manager that has already seen
nine events at time 0. -/
def p100Mgr : WatermarkManager :=
  { config := heuristicCfg 100
    last_watermark := none
    last_periodic_update := 0
    event_timestamps := List.replicate 9 0 }

/-- A heuristic (percentile 50) watermark manager that has already seen
nine events at times 9 down to 1. -/
def midPercentileMgr : WatermarkManager :=
  { config := heuristicCfg 50
    last_watermark := none
    last_periodic_update := 0
    event_timestamps := [9, 8, 7, 6, 5, 4, 3, 2, 1] }

/-- A broadcast channel state (capacity 1, two messages published) whose
subscriber at position 0 has been overrun. -/
def lagState : BroadcastState Nat :=
  { cap := 1, log := [10, 20], receivers := 1, senderClosed := false }

/-- A closed, empty broadcast channel state. -/
def closedState : BroadcastState Nat :=
  { cap := 1, log := [], receivers := 0, senderClosed := true }

/-! # Theorems -/

/-- C2: for every message `m` and timing configuration `c`, the drop
predicate `should_drop_message` returns true iff at least one of the
following holds: the processing deadline is set and `now()` is past it;
the watermark is set and the event time is before it; the jitter bound
is set and the processing latency (ingestion time minus event time,
saturating at zero) exceeds it.  Otherwise the message is kept. -/
theorem should_drop_message_spec (now : SystemTime) (m : Message) (c : TimingConfig) :
    should_drop_message now m c = true ↔
      (∃ d, m.timing.processing_deadline = some d ∧ now > d) ∨
      (∃ w, m.timing.watermark = some w ∧ m.timing.event_time < w) ∨
      (∃ j, c.jitter_bounds = some j ∧ m.timing.processing_latency > j) := by
  unfold should_drop_message TimingInfo.is_deadline_exceeded TimingInfo.is_late
  cases hd : m.timing.processing_deadline <;>
    cases hw : m.timing.watermark <;>
      cases hj : c.jitter_bounds <;>
        simp [hd, hw, hj]

/-- C4 (amended): `Message::new` sets both event time and ingestion time
to `now()`; `Message::new_with_event_time(..., t)` sets the event time
to `t` and the ingestion time also to `t` — not to the time of the call
(`TimingInfo::with_event_time` stores the event time in both fields and
never reads the clock). -/
theorem message_constructor_times (now : SystemTime) (source topic : String)
    (payload : Json) (t : SystemTime) :
    (Message.new now source topic payload).timing.event_time = now ∧
    (Message.new now source topic payload).timing.ingestion_time = now ∧
    (Message.new_with_event_time now source topic payload t).timing.event_time = t ∧
    (Message.new_with_event_time now source topic payload t).timing.ingestion_time = t :=
  ⟨rfl, rfl, rfl, rfl⟩

/-- C4 counterexample: called at clock reading 100 with explicit event
time 5, `Message::new_with_event_time` stores ingestion time 5 — the
event time — and not the call time 100 the claim asserts. -/
theorem new_with_event_time_ingestion_counterexample :
    (Message.new_with_event_time 100 "sim" "raw" Json.null 5).timing.ingestion_time = 5 ∧
    (5 : Int) ≠ 100 :=
  ⟨rfl, by decide⟩

/-- C5: on a Direct (MPSC) channel the first `subscribe` yields the sole
receiver; afterwards the receiver slot is empty, so the second call can
only reach the receiver-taken branch (the `expect` panic, modelled as
`none`), and the channel state is left unchanged, so every later call
does the same. -/
theorem mpsc_second_subscribe_fails (capacity : Nat) :
    ((MpscChannel.new capacity).subscribe.1.isSome = true) ∧
    ((MpscChannel.new capacity).subscribe.2.subscribe.1 = none) ∧
    (∀ ch : MpscChannel, ch.receiver = none →
      ch.subscribe.1 = none ∧ ch.subscribe.2 = ch) := by
  refine ⟨rfl, rfl, fun ch h => ?_⟩
  simp [MpscChannel.subscribe, h]

/-- C5 witness: the channel state after the first subscribe on a fresh
Direct channel of capacity 128 has no receiver left, and subscribing on
it yields the taken branch and leaves the state unchanged. -/
theorem mpsc_second_subscribe_fails_witness :
    (MpscChannel.mk 128 none).subscribe.1 = none ∧
    (MpscChannel.mk 128 none).subscribe.2 = MpscChannel.mk 128 none :=
  (mpsc_second_subscribe_fails 128).2.2 (MpscChannel.mk 128 none) rfl

/-- C7: `get_or_create` returns an existing channel unchanged, ignoring
the supplied type and capacity; two successive `get_or_create` calls
with the same name return the identical channel id and registry; and a
subsequent `get` returns that same channel id. -/
theorem get_or_create_spec :
    (∀ (r : ChannelRegistry) (n : String) (t : ChannelType) (c id : Nat),
        r.get n = some id → r.get_or_create n t c = (id, r)) ∧
    (∀ (r : ChannelRegistry) (n : String) (t t2 : ChannelType) (c c2 : Nat),
        (r.get_or_create n t c).2.get_or_create n t2 c2 =
          ((r.get_or_create n t c).1, (r.get_or_create n t c).2)) ∧
    (∀ (r : ChannelRegistry) (n : String) (t : ChannelType) (c : Nat),
        (r.get_or_create n t c).2.get n = some (r.get_or_create n t c).1) := by
  have hfresh : ∀ (r : ChannelRegistry) (n : String) (t : ChannelType) (c : Nat),
      r.get n = none →
      (r.get_or_create n t c).2.get n = some (r.get_or_create n t c).1 := by
    intro r n t c h
    unfold ChannelRegistry.get_or_create
    rw [h]
    simp [ChannelRegistry.get, List.find?_cons_of_pos]
  have hget : ∀ (r : ChannelRegistry) (n : String) (t : ChannelType) (c : Nat),
      (r.get_or_create n t c).2.get n = some (r.get_or_create n t c).1 := by
    intro r n t c
    cases h : r.get n with
    | some id => simp [ChannelRegistry.get_or_create, h]
    | none => exact hfresh r n t c h
  have hexist : ∀ (r : ChannelRegistry) (n : String) (t : ChannelType) (c id : Nat),
      r.get n = some id → r.get_or_create n t c = (id, r) := by
    intro r n t c id h
    simp [ChannelRegistry.get_or_create, h]
  refine ⟨hexist, fun r n t t2 c c2 => ?_, hget⟩
  have h2 := hexist (r.get_or_create n t c).2 n t2 c2 (r.get_or_create n t c).1
      (hget r n t c)
  exact h2

/-- C7 witness: in the registry where "raw" is channel 0, a
`get_or_create` with a different type and capacity returns channel 0 and
leaves the registry untouched. -/
theorem get_or_create_spec_witness :
    (ChannelRegistry.mk [("raw", 0)] [ChannelDesc.mk .broadcast 128]).get_or_create
        "raw" .direct 7 =
      (0, ChannelRegistry.mk [("raw", 0)] [ChannelDesc.mk .broadcast 128]) :=
  get_or_create_spec.1 (ChannelRegistry.mk [("raw", 0)] [ChannelDesc.mk .broadcast 128])
    "raw" .direct 7 0 (by decide)

/-- C10: publishing on a Fan-out channel with zero subscribers returns
`Ok` and delivers to nobody (the channel is returned unchanged, the
message silently discarded), and a subscriber attached later starts with
an empty queue, so a publish reaches only subscribers attached before
it; publishing on a Broadcast channel with zero live receivers returns
an error.  The two variants disagree on the zero-subscriber outcome. -/
theorem fanout_vs_broadcast_zero_subscribers (M : Type) (m : M) (capacity : Nat) :
    (FanoutChannel.new M capacity).publish m = .ok (FanoutChannel.new M capacity) ∧
    BroadcastChannel.publish (BroadcastChannel.new M capacity) m = .error .broadcastError ∧
    (∀ ch : FanoutChannel M,
      ch.subscribe.2.senders.get? ch.subscribe.1 =
        some { alive := true, queue := [] }) := by
  refine ⟨rfl, rfl, fun ch => ?_⟩
  simp [FanoutChannel.subscribe]

/-- A control channel that was never attached, or whose sender is gone
with every pending message drained, yields nothing and is left
unchanged by the control branch of the select. -/
theorem controlPoll_silent (ctl : ControlState)
    (h : ctl = none ∨ ∃ st pos, ctl = some (st, pos) ∧
        st.senderClosed = true ∧ st.log.length ≤ pos) :
    controlPoll ctl = (none, ctl) := by
  rcases h with h | ⟨st, pos, rfl, hc, hp⟩
  · simp [h, controlPoll]
  · have h1 : ¬ (pos + st.cap < st.log.length) := by omega
    have h2 : st.log[pos]? = none := List.getElem?_eq_none hp
    simp [controlPoll, bcRecv, h1, h2, hc]

/-- C9: if a stage's control channel was never attached
(`control_channel` is `None`), or the control sender has been dropped
and the receiver is drained, the `Stage::run` loop can never take the
terminate branch: on every schedule of processor results it is not
`terminated`, and on an error-free schedule it just keeps running. -/
theorem stage_run_without_control_never_terminates (ctl : ControlState)
    (h : ctl = none ∨ ∃ st pos, ctl = some (st, pos) ∧
        st.senderClosed = true ∧ st.log.length ≤ pos)
    (procResults : List (Except String Unit)) :
    stageRun ctl procResults ≠ .terminated ∧
    ((∀ r ∈ procResults, r = .ok ()) → stageRun ctl procResults = .running ctl) := by
  induction procResults with
  | nil =>
      refine ⟨?_, fun _ => ?_⟩ <;> simp [stageRun, controlPoll_silent ctl h]
  | cons r rest ih =>
      cases r with
      | error e =>
          refine ⟨?_, fun hok => ?_⟩
          · simp [stageRun, controlPoll_silent ctl h]
          · exact absurd (hok (.error e) (by simp)) (by simp)
      | ok u =>
          cases u
          refine ⟨?_, fun hok => ?_⟩
          · simpa [stageRun, controlPoll_silent ctl h] using ih.1
          · have := ih.2 (fun r hr => hok r (by simp [hr]))
            simpa [stageRun, controlPoll_silent ctl h] using this

/-- C9 witness: with no control channel attached, a schedule of one `Ok`
followed by a processor error does not terminate through the control
branch. -/
theorem stage_run_without_control_never_terminates_witness :
    stageRun none [Except.ok (), Except.error "boom"] ≠ .terminated :=
  (stage_run_without_control_never_terminates none (Or.inl rfl)
    [Except.ok (), Except.error "boom"]).1

/-- C6 counterexample: the repository's `Subscriber::recv` maps the
broadcast `Lagged` error and the `Closed` error to the same value
`None` — the lagged signal an overrun subscriber sees is NOT
distinguishable from the channel-closed signal. -/
theorem broadcast_lag_signal_counterexample :
    subscriberRecvBroadcast lagState 0 = some (none, 1) ∧
    subscriberRecvBroadcast closedState 0 = some (none, 0) ∧
    (subscriberRecvBroadcast lagState 0).map Prod.fst =
      (subscriberRecvBroadcast closedState 0).map Prod.fst := by
  refine ⟨by decide, by decide, by decide⟩

/-- C6 (amended): an overrun subscriber's `recv` yields `none` — the
same value the channel-closed case yields, so the two are not
distinguishable at the `recv` interface — and the lag advances the
receiver to the oldest retained message, so the next `recv` resumes
delivery from the next live message. -/
theorem broadcast_lagged_recv_resumes (M : Type) (st : BroadcastState M) (pos : Nat)
    (hlag : pos + st.cap < st.log.length) (hcap : 0 < st.cap) :
    subscriberRecvBroadcast st pos = some (none, st.log.length - st.cap) ∧
    ∃ m, st.log[st.log.length - st.cap]? = some m ∧
      subscriberRecvBroadcast st (st.log.length - st.cap) =
        some (some m, st.log.length - st.cap + 1) := by
  constructor
  · simp [subscriberRecvBroadcast, bcRecv, hlag]
  · cases hm : st.log[st.log.length - st.cap]? with
    | none =>
        have := List.getElem?_eq_none_iff.mp hm
        omega
    | some m =>
        refine ⟨m, rfl, ?_⟩
        have hnl : ¬ (st.log.length - st.cap + st.cap < st.log.length) := by omega
        simp [subscriberRecvBroadcast, bcRecv, hnl, hm]

/-- C6 witness: on the concrete overrun state (capacity 1, log `[10, 20]`,
subscriber at position 0) recv yields `none` and moves to position 1;
the next recv delivers the live message 20. -/
theorem broadcast_lagged_recv_resumes_witness :
    subscriberRecvBroadcast lagState 0 = some (none, 1) ∧
    ∃ m, lagState.log[1]? = some m ∧
      subscriberRecvBroadcast lagState 1 = some (some m, 2) :=
  broadcast_lagged_recv_resumes Nat lagState 0 (by decide) (by decide)

/-- C3 counterexample: under the heuristic strategy (percentile 0, zero
max lateness) a manager that has seen nine events at time 1000 emits
watermark 1000 on the tenth event at 1000, and then watermark 0 on an
eleventh event at time 0 — the successive watermarks 1000, 0 decrease,
so `update_watermark` does not clamp candidates to
`max(last, candidate)` and the emitted sequence is not non-decreasing. -/
theorem watermark_not_monotone_counterexample :
    (WatermarkManager.update_watermark 0 nonMonotoneMgr (msgWithEventTime 1000)).1 =
      some 1000 ∧
    (WatermarkManager.update_watermark 0
        (WatermarkManager.update_watermark 0 nonMonotoneMgr (msgWithEventTime 1000)).2
        (msgWithEventTime 0)).1 = some 0 ∧
    (0 : Int) < 1000 :=
  ⟨by decide, by decide, by decide⟩

/-- C3 (amended): `update_watermark` emits the raw candidate, computed
from the strategy inputs alone: the emitted value is independent of the
previously recorded watermark (no clamping), and — as the counterexample
shows — may therefore decrease within one run. -/
theorem update_watermark_ignores_last (now : SystemTime) (mgr : WatermarkManager)
    (m : Message) (lw : Option SystemTime) :
    (WatermarkManager.update_watermark now { mgr with last_watermark := lw } m).1 =
      (WatermarkManager.update_watermark now mgr m).1 := by
  cases hs : mgr.config.watermark_strategy with
  | none_ => simp [WatermarkManager.update_watermark, hs]
  | periodic interval =>
      simp only [WatermarkManager.update_watermark, hs]
      split <;> rfl
  | punctuated field =>
      simp only [WatermarkManager.update_watermark, hs]
      cases extract_timestamp_field m.payload field <;> rfl
  | heuristic p =>
      simp only [WatermarkManager.update_watermark, hs, heuristicWindow]
      split <;> split <;> rfl

/-- C8 counterexample: with the configured percentile 100 and ten
samples, the index `⌊N·p/100⌋ = 10` is out of range of the sorted
window, so the code falls back to `now()` (here 777) minus max lateness:
the emitted watermark 777 is not `sorted[⌊N·p/100⌋] − max_lateness` for
any window element (every window element gives 0). -/
theorem heuristic_percentile100_counterexample :
    (WatermarkManager.update_watermark 777 p100Mgr (msgWithEventTime 0)).1 = some 777 ∧
    (sortTimes (heuristicWindow p100Mgr (msgWithEventTime 0)))[heuristicIndex 100 10]? =
      none ∧
    ((sortTimes (heuristicWindow p100Mgr (msgWithEventTime 0))).all
        (fun t => t - (p100Mgr.config.max_lateness : Int) != 777)) = true :=
  ⟨by decide, by decide, by decide⟩

/-- C8 (amended): under `Heuristic { percentile }`, `update_watermark`
returns no watermark while the window (after pushing the current event
time and trimming to the last 1000) holds fewer than 10 samples; with at
least 10 samples it emits `sorted[i] − max_lateness` where `sorted` is
the ascending sort of the window and `i = ⌊N·p/100⌋`, provided `i` is in
range — when `i` is out of range (e.g. percentile 100) it emits
`now() − max_lateness` instead. -/
theorem heuristic_update_spec (now : SystemTime) (mgr : WatermarkManager)
    (m : Message) (p : ℚ) (hs : mgr.config.watermark_strategy = .heuristic p) :
    ((heuristicWindow mgr m).length < 10 →
        (WatermarkManager.update_watermark now mgr m).1 = none) ∧
    (∀ v, 10 ≤ (heuristicWindow mgr m).length →
        (sortTimes (heuristicWindow mgr m))[heuristicIndex p
            (sortTimes (heuristicWindow mgr m)).length]? = some v →
        (WatermarkManager.update_watermark now mgr m).1 =
          some (v - (mgr.config.max_lateness : Int))) ∧
    (10 ≤ (heuristicWindow mgr m).length →
        (sortTimes (heuristicWindow mgr m))[heuristicIndex p
            (sortTimes (heuristicWindow mgr m)).length]? = none →
        (WatermarkManager.update_watermark now mgr m).1 =
          some (now - (mgr.config.max_lateness : Int))) ∧
    (sortTimes (heuristicWindow mgr m)).Sorted (· ≤ ·) ∧
    (sortTimes (heuristicWindow mgr m)).Perm (heuristicWindow mgr m) := by
  refine ⟨?_, ?_, ?_, ?_, ?_⟩
  · intro hlt
    simp only [WatermarkManager.update_watermark, hs]
    rw [if_neg (by omega)]
  · intro v h10 hv
    simp only [WatermarkManager.update_watermark, hs]
    rw [if_pos (by omega)]
    simp [hv]
  · intro h10 hv
    simp only [WatermarkManager.update_watermark, hs]
    rw [if_pos (by omega)]
    simp [hv]
  · exact List.sorted_insertionSort (· ≤ ·) (heuristicWindow mgr m)
  · exact List.perm_insertionSort (· ≤ ·) (heuristicWindow mgr m)

/-- C8 witness: percentile 50 with ten samples 9..0 — index
`⌊10·50/100⌋ = 5`, sorted window `[0..9]`, emitted watermark
`sorted[5] − max_lateness = 5`. -/
theorem heuristic_update_spec_witness :
    (WatermarkManager.update_watermark 0 midPercentileMgr (msgWithEventTime 0)).1 =
      some (5 - (midPercentileMgr.config.max_lateness : Int)) :=
  (heuristic_update_spec 0 midPercentileMgr (msgWithEventTime 0) 50 rfl).2.1 5
    (by decide) (by decide)
/-- `Channel::subscribe` during wiring changes at most the set of taken
Direct receivers: registry, stage set and wiring records are untouched. -/
theorem channelSubscribe_preserves (st : WiringState) (id : Nat) (st2 : WiringState)
    (h : channelSubscribe st id = .ok st2) :
    st2.registry = st.registry ∧ st2.stageSet = st.stageSet ∧ st2.wired = st.wired := by
  unfold channelSubscribe at h
  cases hd : st.registry.store[id]? with
  | none =>
      simp only [hd] at h
      cases h
      exact ⟨rfl, rfl, rfl⟩
  | some desc =>
      simp only [hd] at h
      cases hk : desc.kind with
      | direct =>
          simp only [hk] at h
          by_cases hmem : id ∈ st.takenReceivers
          · rw [if_pos hmem] at h
            cases h
          · rw [if_neg hmem] at h
            cases h
            exact ⟨rfl, rfl, rfl⟩
      | broadcast =>
          simp only [hk] at h
          cases h
          exact ⟨rfl, rfl, rfl⟩
      | shared =>
          simp only [hk] at h
          cases h
          exact ⟨rfl, rfl, rfl⟩
      | fanout =>
          simp only [hk] at h
          cases h
          exact ⟨rfl, rfl, rfl⟩

/-- A `map_inputs` loop that returns `Ok` subscribed every named input,
in order, and touched nothing but the taken-receiver set. -/
theorem mapInputsGo_ok (st : WiringState) (inputs : List String)
    (r : List String × WiringState) (h : mapInputsGo st inputs = .ok r) :
    r.1 = inputs ∧ r.2.registry = st.registry ∧ r.2.stageSet = st.stageSet ∧
      r.2.wired = st.wired := by
  induction inputs generalizing st r with
  | nil =>
      simp only [mapInputsGo] at h
      cases h
      exact ⟨rfl, rfl, rfl, rfl⟩
  | cons i rest ih =>
      cases hg : st.registry.get i with
      | none =>
          simp only [mapInputsGo, hg] at h
          cases h
      | some id =>
          cases hsub : channelSubscribe st id with
          | error msg =>
              simp only [mapInputsGo, hg, hsub] at h
              cases h
          | ok st3 =>
              cases hrec : mapInputsGo st3 rest with
              | error f =>
                  simp only [mapInputsGo, hg, hsub, hrec] at h
                  cases h
              | ok r3 =>
                  simp only [mapInputsGo, hg, hsub, hrec] at h
                  cases h
                  have hp := channelSubscribe_preserves st id st3 hsub
                  have hr := ih st3 r3 hrec
                  refine ⟨by rw [hr.1], ?_, ?_, ?_⟩
                  · rw [show (i :: r3.1, r3.2).2 = r3.2 from rfl, hr.2.1, hp.1]
                  · rw [show (i :: r3.1, r3.2).2 = r3.2 from rfl, hr.2.2.1, hp.2.1]
                  · rw [show (i :: r3.1, r3.2).2 = r3.2 from rfl, hr.2.2.2, hp.2.2]

/-- A successful `map_inputs` subscribes exactly the stage's declared
inputs and touches nothing but the taken-receiver set. -/
theorem mapInputs_ok (st : WiringState) (sc : StageConfig)
    (r : List String × WiringState) (h : mapInputs st sc = .ok r) :
    r.1 = sc.inputs.getD [] ∧ r.2.registry = st.registry ∧
      r.2.stageSet = st.stageSet ∧ r.2.wired = st.wired := by
  cases hi : sc.inputs with
  | some inputs =>
      unfold mapInputs at h
      rw [hi] at h
      have := mapInputsGo_ok st inputs r h
      simpa [hi] using this
  | none =>
      unfold mapInputs at h
      rw [hi] at h
      cases h
      simp [hi]

/-- A successful `try_connect_stage` appends exactly the stage's wiring
record — every named input subscribed and the declared output attached. -/
theorem tryConnectStage_ok_wired (st : WiringState) (e : String × StageConfig)
    (st2 : WiringState) (h : tryConnectStage st e = .ok st2) :
    st2.wired = st.wired ++ [wireRecOf e] := by
  unfold tryConnectStage at h
  by_cases h1 : e.1 ∈ st.stageSet
  · rw [if_pos h1] at h
    by_cases h2 : areAllInputsAvailable st.registry e.2 = true
    · rw [if_pos h2] at h
      cases hm : mapInputs st e.2 with
      | ok r =>
          simp only [hm] at h
          cases h
          have hr := mapInputs_ok st e.2 r hm
          simp [wireRecOf, hr.1, hr.2.2.2]
      | error f =>
          simp only [hm] at h
          cases h
    · rw [if_neg h2] at h
      cases h
  · rw [if_neg h1] at h
    cases h

/-- A worklist pass that completes without panicking only appends wiring
records. -/
theorem connectPass_ok_wired_mono (st : WiringState) (ds : List (String × StageConfig))
    (r : WiringState × List (String × StageConfig) × Bool)
    (h : connectPass st ds = .ok r) (w : WireRec) (hw : w ∈ st.wired) :
    w ∈ r.1.wired := by
  induction ds generalizing st r with
  | nil =>
      simp only [connectPass] at h
      cases h
      exact hw
  | cons e rest ih =>
      cases htc : tryConnectStage st e with
      | ok st2 =>
          cases hrec : connectPass st2 rest with
          | ok r3 =>
              simp only [connectPass, htc, hrec] at h
              cases h
              refine ih st2 r3 hrec ?_
              rw [tryConnectStage_ok_wired st e st2 htc]
              exact List.mem_append_left _ hw
          | error msg =>
              simp only [connectPass, htc, hrec] at h
              cases h
      | error f =>
          cases f with
          | recoverable msg =>
              cases hrec : connectPass st rest with
              | ok r3 =>
                  simp only [connectPass, htc, hrec] at h
                  cases h
                  exact ih st r3 hrec hw
              | error msg2 =>
                  simp only [connectPass, htc, hrec] at h
                  cases h
          | panic msg =>
              simp only [connectPass, htc] at h
              cases h

/-- After a non-panicking worklist pass, every stage of the worklist is
either still deferred or fully wired. -/
theorem connectPass_ok_covers (st : WiringState) (ds : List (String × StageConfig))
    (r : WiringState × List (String × StageConfig) × Bool)
    (h : connectPass st ds = .ok r) (e : String × StageConfig) (he : e ∈ ds) :
    e ∈ r.2.1 ∨ wireRecOf e ∈ r.1.wired := by
  induction ds generalizing st r with
  | nil => cases he
  | cons a rest ih =>
      cases htc : tryConnectStage st a with
      | ok st2 =>
          cases hrec : connectPass st2 rest with
          | ok r3 =>
              simp only [connectPass, htc, hrec] at h
              cases h
              rcases List.mem_cons.mp he with rfl | hr
              · right
                refine connectPass_ok_wired_mono st2 rest r3 hrec _ ?_
                rw [tryConnectStage_ok_wired _ _ _ htc]
                simp
              · exact ih st2 r3 hrec hr
          | error msg =>
              simp only [connectPass, htc, hrec] at h
              cases h
      | error f =>
          cases f with
          | recoverable msg =>
              cases hrec : connectPass st rest with
              | ok r3 =>
                  simp only [connectPass, htc, hrec] at h
                  cases h
                  rcases List.mem_cons.mp he with rfl | hr
                  · left
                    simp
                  · rcases ih st r3 hrec hr with hk | hw2
                    · left
                      simp [hk]
                    · right
                      exact hw2
              | error msg2 =>
                  simp only [connectPass, htc, hrec] at h
                  cases h
          | panic msg =>
              simp only [connectPass, htc] at h
              cases h

/-- A non-panicking pass never grows the deferred list, and one that
reports progress wired at least one stage, strictly shrinking it. -/
theorem connectPass_ok_kept_le (st : WiringState) (ds : List (String × StageConfig))
    (r : WiringState × List (String × StageConfig) × Bool)
    (h : connectPass st ds = .ok r) :
    r.2.1.length ≤ ds.length ∧ (r.2.2 = true → r.2.1.length < ds.length) := by
  induction ds generalizing st r with
  | nil =>
      simp only [connectPass] at h
      cases h
      simp
  | cons e rest ih =>
      cases htc : tryConnectStage st e with
      | ok st2 =>
          cases hrec : connectPass st2 rest with
          | ok r3 =>
              simp only [connectPass, htc, hrec] at h
              cases h
              exact ⟨Nat.le_succ_of_le (ih st2 r3 hrec).1,
                fun _ => Nat.lt_succ_of_le (ih st2 r3 hrec).1⟩
          | error msg =>
              simp only [connectPass, htc, hrec] at h
              cases h
      | error f =>
          cases f with
          | recoverable msg =>
              cases hrec : connectPass st rest with
              | ok r3 =>
                  simp only [connectPass, htc, hrec] at h
                  cases h
                  exact ⟨Nat.succ_le_succ (ih st r3 hrec).1,
                    fun hp => Nat.succ_lt_succ ((ih st r3 hrec).2 hp)⟩
              | error msg2 =>
                  simp only [connectPass, htc, hrec] at h
                  cases h
          | panic msg =>
              simp only [connectPass, htc] at h
              cases h

/-- A non-panicking pass that reports no progress connected nothing: it
keeps the whole worklist, in order. -/
theorem connectPass_ok_noprogress_id (st : WiringState)
    (ds : List (String × StageConfig))
    (r : WiringState × List (String × StageConfig) × Bool)
    (h : connectPass st ds = .ok r) (hp : r.2.2 = false) : r.2.1 = ds := by
  induction ds generalizing st r with
  | nil =>
      simp only [connectPass] at h
      cases h
      rfl
  | cons e rest ih =>
      cases htc : tryConnectStage st e with
      | ok st2 =>
          cases hrec : connectPass st2 rest with
          | ok r3 =>
              simp only [connectPass, htc, hrec] at h
              cases h
              cases hp
          | error msg =>
              simp only [connectPass, htc, hrec] at h
              cases h
      | error f =>
          cases f with
          | recoverable msg =>
              cases hrec : connectPass st rest with
              | ok r3 =>
                  simp only [connectPass, htc, hrec] at h
                  cases h
                  have hp3 : r3.2.2 = false := hp
                  rw [show (r3.1, e :: r3.2.1, r3.2.2).2.1 = e :: r3.2.1 from rfl,
                    ih st r3 hrec hp3]
              | error msg2 =>
                  simp only [connectPass, htc, hrec] at h
                  cases h
          | panic msg =>
              simp only [connectPass, htc] at h
              cases h

/-- `resolve_deferred_stages` returning `Ok` preserves every wiring
record and wires every deferred stage. -/
theorem resolveDeferredStages_ok_spec (n : Nat) :
    ∀ (st : WiringState) (ds : List (String × StageConfig)), ds.length ≤ n →
    ∀ st2, resolveDeferredStages st ds = .ok st2 →
      (∀ w ∈ st.wired, w ∈ st2.wired) ∧ (∀ e ∈ ds, wireRecOf e ∈ st2.wired) := by
  induction n with
  | zero =>
      intro st ds hlen st2 h
      have hds : ds = [] := List.length_eq_zero.mp (Nat.le_zero.mp hlen)
      subst hds
      rw [resolveDeferredStages.eq_def] at h
      simp only [List.isEmpty_nil, if_true] at h
      cases h
      exact ⟨fun w hw => hw, fun e he => absurd he (List.not_mem_nil e)⟩
  | succ n ih =>
      intro st ds hlen st2 h
      rw [resolveDeferredStages.eq_def] at h
      by_cases hde : ds.isEmpty
      · rw [if_pos hde] at h
        cases h
        have hds : ds = [] := List.isEmpty_iff.mp hde
        subst hds
        exact ⟨fun w hw => hw, fun e he => absurd he (List.not_mem_nil e)⟩
      · rw [if_neg hde] at h
        split at h
        · cases h
        · rename_i r heq
          by_cases hk : r.2.1.isEmpty
          · rw [if_pos hk] at h
            cases h
            refine ⟨fun w hw => connectPass_ok_wired_mono st ds r heq w hw,
              fun e he => ?_⟩
            rcases connectPass_ok_covers st ds r heq e he with hkept | hw2
            · rw [List.isEmpty_iff.mp hk] at hkept
              cases hkept
            · exact hw2
          · rw [if_neg hk] at h
            by_cases hp : r.2.2 = true
            · rw [dif_pos hp] at h
              have hlt := (connectPass_ok_kept_le st ds r heq).2 hp
              have hrec := ih r.1 r.2.1 (by omega) st2 h
              refine ⟨fun w hw =>
                hrec.1 w (connectPass_ok_wired_mono st ds r heq w hw),
                fun e he => ?_⟩
              rcases connectPass_ok_covers st ds r heq e he with hkept | hw2
              · exact hrec.2 e hkept
              · exact hrec.1 _ hw2
            · rw [dif_neg hp] at h
              cases h

/-- `resolve_deferred_stages` returns the unmet-or-circular-dependency
error only out of a full non-panicking pass that makes no progress on a
non-empty worklist, and the error names exactly the stages of that
worklist. -/
theorem resolveDeferredStages_unmet_spec (n : Nat) :
    ∀ (st : WiringState) (ds : List (String × StageConfig)), ds.length ≤ n →
    ∀ names, resolveDeferredStages st ds = .unmet names →
      ∃ st0 ds0 r0, ds0 ≠ [] ∧ connectPass st0 ds0 = .ok r0 ∧ r0.2.2 = false ∧
        r0.2.1 = ds0 ∧ names = ds0.map (·.1) := by
  induction n with
  | zero =>
      intro st ds hlen names h
      have hds : ds = [] := List.length_eq_zero.mp (Nat.le_zero.mp hlen)
      subst hds
      rw [resolveDeferredStages.eq_def] at h
      simp only [List.isEmpty_nil, if_true] at h
      cases h
  | succ n ih =>
      intro st ds hlen names h
      rw [resolveDeferredStages.eq_def] at h
      by_cases hde : ds.isEmpty
      · rw [if_pos hde] at h
        cases h
      · rw [if_neg hde] at h
        split at h
        · cases h
        · rename_i r heq
          by_cases hk : r.2.1.isEmpty
          · rw [if_pos hk] at h
            cases h
          · rw [if_neg hk] at h
            by_cases hp : r.2.2 = true
            · rw [dif_pos hp] at h
              have hlt := (connectPass_ok_kept_le st ds r heq).2 hp
              exact ih r.1 r.2.1 (by omega) names h
            · rw [dif_neg hp] at h
              cases h
              have hpf : r.2.2 = false := by simpa using hp
              have hid := connectPass_ok_noprogress_id st ds r heq hpf
              refine ⟨st, ds, r, ?_, heq, hpf, hid, ?_⟩
              · intro hnil
                rw [hnil] at hde
                exact hde List.isEmpty_nil
              · rw [hid]

/-- C1 counterexample: `directDoubleConfig` — a structurally valid
configuration whose Direct stream `raw` is consumed by two stages —
makes `connect_stages` panic while wiring the second consumer
(`MpscChannel::subscribe`: "mpsc: subscribe() called more than once"):
the call returns neither `Ok` nor the unmet-or-circular-dependency
error the claim promises for every configuration. -/
theorem connect_stages_panic_counterexample :
    connectStages directDoubleConfig =
      .panicked "mpsc: subscribe() called more than once" := by
  decide

/-- C1 (amended): the `connect_stages` worklist terminates, and on every
configuration whose wiring never performs a second subscribe of a
Direct channel — i.e. whenever no panic occurs — it is correct: (1)
every non-panicking pass that makes progress strictly shrinks the
deferred list (with the totality of `resolveDeferredStages` this bounds
the loop); (2) when `connect_stages` returns `Ok`, every configured
stage carries its full wiring record — all of its named inputs
subscribed and its declared output attached; (3) when it returns the
unmet-or-circular-dependency error, the error names exactly the stages
still deferred at a full non-panicking pass that made no progress on a
non-empty deferred list.  (Wiring two consumers onto one Direct channel
instead panics out of `connect_stages` — see the counterexample.) -/
theorem connect_stages_spec :
    (∀ (st : WiringState) (ds : List (String × StageConfig))
        (r : WiringState × List (String × StageConfig) × Bool),
        connectPass st ds = .ok r → r.2.2 = true → r.2.1.length < ds.length) ∧
    (∀ (cfg : Config) (st2 : WiringState), connectStages cfg = .ok st2 →
        ∀ e ∈ getAllStageConfigs cfg, wireRecOf e ∈ st2.wired) ∧
    (∀ (cfg : Config) (names : List String), connectStages cfg = .unmet names →
        ∃ st0 ds0 r0, ds0 ≠ [] ∧ connectPass st0 ds0 = .ok r0 ∧ r0.2.2 = false ∧
          r0.2.1 = ds0 ∧ names = ds0.map (·.1)) := by
  refine ⟨fun st ds r h hp => (connectPass_ok_kept_le st ds r h).2 hp, ?_, ?_⟩
  · intro cfg st2 h e he
    unfold connectStages at h
    cases hfp : connectPass (initialWiringState cfg) (getAllStageConfigs cfg) with
    | error msg =>
        simp only [hfp] at h
        cases h
    | ok r =>
        simp only [hfp] at h
        have hres := resolveDeferredStages_ok_spec r.2.1.length r.1 r.2.1 le_rfl st2 h
        rcases connectPass_ok_covers _ _ _ hfp e he with hkept | hw
        · exact hres.2 e hkept
        · exact hres.1 _ hw
  · intro cfg names h
    unfold connectStages at h
    cases hfp : connectPass (initialWiringState cfg) (getAllStageConfigs cfg) with
    | error msg =>
        simp only [hfp] at h
        cases h
    | ok r =>
        simp only [hfp] at h
        exact resolveDeferredStages_unmet_spec r.2.1.length r.1 r.2.1 le_rfl names h

/-- C1 witness: on the two-stage dependency cycle of spec Scenario D,
`connect_stages` fails naming `A` and `B`, and those names come from a
full non-panicking no-progress pass over the non-empty deferred list. -/
theorem connect_stages_spec_witness :
    ∃ st0 ds0 r0, ds0 ≠ [] ∧ connectPass st0 ds0 = .ok r0 ∧ r0.2.2 = false ∧
      r0.2.1 = ds0 ∧ ["A", "B"] = ds0.map (·.1) := by
  apply connect_stages_spec.2.2 cycleConfig ["A", "B"]
  have h1 : connectPass (initialWiringState cycleConfig) (getAllStageConfigs cycleConfig)
      = .ok (initialWiringState cycleConfig, getAllStageConfigs cycleConfig, false) := by
    rfl
  unfold connectStages
  rw [h1]
  simp only
  rw [resolveDeferredStages.eq_def]
  rw [if_neg (by decide : ¬ ((getAllStageConfigs cycleConfig).isEmpty = true))]
  split
  · rename_i msg heq
    rw [h1] at heq
    cases heq
  · rename_i r heq
    rw [h1] at heq
    cases heq
    rw [if_neg (by decide : ¬ ((getAllStageConfigs cycleConfig).isEmpty = true))]
    rw [dif_neg (by decide : ¬ ((false : Bool) = true))]
    rw [show List.map (fun x => x.1) (getAllStageConfigs cycleConfig) = ["A", "B"] from
      by decide]
end Liminal
